import Mathlib

/-!
Shallow embedding of the client-side core of `frontend/src/App.js` of the
pdftoexcl repository: file validation, drag-and-drop selection, upload
response handling, preview rendering, download-name derivation and deletion.

React `useState` fields become a record `AppState`; each handler becomes a
pure function from (its inputs and) the current state to the next state,
together with the user-visible outcome it emits (toast kind, message).
JavaScript string operations are embedded over `List Char`
(`toLowerCase`, `endsWith`, and single-occurrence `replace`).
-/

namespace PdfToExc

/-- A selected browser file: only its name and byte size matter to App.js. -/
structure SelFile where
  name : String
  size : Nat
deriving DecidableEq

/-- The `fileInfo` state object built from the upload response (App.js 119-125). -/
structure FileInfo where
  id : String
  originalFilename : String
  status : String
  totalRows : Nat
  totalPages : Nat
deriving DecidableEq

/-- The `useState` fields of the `App` component (App.js 36-41). -/
structure AppState where
  file : Option SelFile
  isDragging : Bool
  isUploading : Bool
  uploadProgress : Nat
  previewData : Option (List (List String))
  fileInfo : Option FileInfo
deriving DecidableEq

/-- The initial component state: all `useState` initial values. -/
def initialState : AppState :=
  { file := none, isDragging := false, isUploading := false,
    uploadProgress := 0, previewData := none, fileInfo := none }

/-- `const MAX_FILE_SIZE = 10 * 1024 * 1024` (App.js 33). -/
def MAX_FILE_SIZE : Nat := 10 * 1024 * 1024

/-- JavaScript `String.prototype.toLowerCase` (ASCII-faithful). -/
def jsToLower (s : String) : String := ⟨s.data.map Char.toLower⟩

/-- JavaScript `String.prototype.endsWith`. -/
def jsEndsWith (s suffix : String) : Bool := suffix.data.isSuffixOf s.data

/-- The user-visible outcome of `validateAndSetFile`: accepted, or one of the
two rejection toasts (wrong extension / too large). -/
inductive ValidationResult where
  | accepted
  | wrongType
  | tooLarge
deriving DecidableEq

/-- `validateAndSetFile` (App.js 70-90): rejects a name whose lowercase form
does not end in `.pdf`, then rejects a size strictly above `MAX_FILE_SIZE`,
otherwise sets `file` and clears `previewData` and `fileInfo`. -/
def validateAndSetFile (selectedFile : SelFile) (s : AppState) :
    AppState × ValidationResult :=
  if ¬ (jsEndsWith (jsToLower selectedFile.name) ".pdf" = true) then
    (s, .wrongType)
  else if selectedFile.size > MAX_FILE_SIZE then
    (s, .tooLarge)
  else
    ({ s with file := some selectedFile, previewData := none, fileInfo := none },
     .accepted)

/-- `resetState` (App.js 43-48). -/
def resetState (s : AppState) : AppState :=
  { s with file := none, previewData := none, fileInfo := none, uploadProgress := 0 }

/-- `handleDrop` (App.js 60-68): clears the dragging flag and validates only
`e.dataTransfer.files[0]`; with no dropped file nothing else happens. -/
def handleDrop (files : List SelFile) (s : AppState) :
    AppState × Option ValidationResult :=
  let s1 : AppState := { s with isDragging := false }
  match files with
  | [] => (s1, none)
  | f :: _ =>
    let r := validateAndSetFile f s1
    (r.1, some r.2)

/-- The JSON body of a successful `POST /api/upload` response (App.js 119-127). -/
structure UploadResponse where
  id : String
  original_filename : String
  status : String
  total_rows : Nat
  total_pages : Nat
  preview_data : List (List String)
deriving DecidableEq

/-- Outcome of the axios upload request: a parsed success body, or a failure
whose optional `detail` field is the server-provided error message. -/
inductive UploadOutcome where
  | success (resp : UploadResponse)
  | failure (detail : Option String)
deriving DecidableEq

/-- `uploadFile` (App.js 99-141): no-op without a selected file; on success
stores `fileInfo` and `previewData`; on failure shows the error message
(`detail` or the generic fallback) and calls `resetState`; in both cases the
`finally` block clears `isUploading`. Returns the next state and the error
message shown, if any. -/
def uploadFile (outcome : UploadOutcome) (s : AppState) :
    AppState × Option String :=
  match s.file with
  | none => (s, none)
  | some _ =>
    let s1 : AppState := { s with isUploading := true, uploadProgress := 0 }
    match outcome with
    | .success r =>
      ({ s1 with
          fileInfo := some
            { id := r.id, originalFilename := r.original_filename,
              status := r.status, totalRows := r.total_rows,
              totalPages := r.total_pages },
          previewData := some r.preview_data,
          isUploading := false }, none)
    | .failure d =>
      ({ resetState s1 with isUploading := false },
       some (d.getD "Error al procesar el archivo"))

/-- JavaScript `String.prototype.replace` with a string pattern replaces only
the first occurrence of the pattern, scanning left to right; a string without
the pattern is returned unchanged. List-level worker. -/
def replaceFirstList (pat rep : List Char) : List Char → List Char
  | [] => if pat = [] then rep else []
  | c :: rest =>
    if pat = (c :: rest).take pat.length then
      rep ++ (c :: rest).drop pat.length
    else
      c :: replaceFirstList pat rep rest

/-- JavaScript `s.replace(pat, rep)` for plain-string `pat`. -/
def jsReplaceFirst (s pat rep : String) : String :=
  ⟨replaceFirstList pat.data rep.data s.data⟩

/-- The download filename shown by `downloadFile` (App.js 153):
`fileInfo.originalFilename.replace(".pdf", ".xlsx")`. -/
def downloadName (originalFilename : String) : String :=
  jsReplaceFirst originalFilename ".pdf" ".xlsx"

/-- Outcome of the `DELETE /api/file/id` request issued by `deleteFile`. -/
inductive DeleteOutcome where
  | ok
  | notFound
  | netError
deriving DecidableEq

/-- `deleteFile` (App.js 163-172): issues the DELETE request only when a
`fileInfo.id` exists, swallows any request error (catch only logs), and
unconditionally calls `resetState`. -/
def deleteFile (outcome : DeleteOutcome) (s : AppState) : AppState :=
  match s.fileInfo with
  | some _ =>
    match outcome with
    | .ok => resetState s
    | .notFound => resetState s
    | .netError => resetState s
  | none => resetState s

/-- `Math.max(...previewData.map(row => row.length))` as used by `getHeaders`
(App.js 177); the fold with 0 agrees with `Math.max` on every non-empty list. -/
def maxCols (previewData : List (List String)) : Nat :=
  (previewData.map List.length).foldr max 0

/-- `getHeaders` (App.js 175-179): empty for empty data, else one generic
header per column up to the maximum row width. -/
def getHeaders (previewData : List (List String)) : List String :=
  if previewData.length = 0 then []
  else (List.range (maxCols previewData)).map
    (fun i => "Columna " ++ toString (i + 1))

/-- One rendered table cell: `row[colIdx] || ''` (App.js 365) — the cell text
when present, the empty string when the row is too short (or the cell empty). -/
def renderedCell (row : List String) (colIdx : Nat) : String :=
  row.getD colIdx ""

/-- One rendered table row: a cell for each header index (App.js 362-368). -/
def renderedRow (previewData : List (List String)) (row : List String) :
    List String :=
  (List.range (getHeaders previewData).length).map (renderedCell row)

/-- The rendered preview body: `previewData.slice(0, 100)` mapped to rendered
rows (App.js 361-369). -/
def renderedPreview (previewData : List (List String)) : List (List String) :=
  (previewData.take 100).map (renderedRow previewData)

/-- `Math.min(previewData.length, 100)`, the count shown in
"Mostrando X de Y filas" (App.js 345). -/
def shownRowCount (previewData : List (List String)) : Nat :=
  min previewData.length 100

/-- Earlier-occurrence freedom: `noEarlierMatch pat stem = true` says that no
occurrence of `pat` inside `stem ++ pat` starts strictly before position
`stem.length`. -/
def noEarlierMatch (pat : List Char) : List Char → Bool
  | [] => true
  | c :: rest =>
    (!(pat == ((c :: rest) ++ pat).take pat.length)) && noEarlierMatch pat rest

/-- A state with a selected file, used to instantiate theorems. -/
def stateWithFile : AppState :=
  { initialState with file := some ⟨"doc.pdf", 5⟩ }

/-- Claim C1: once the extension check passes, `validateAndSetFile` accepts a
file exactly when its byte size is at most `10 * 1024 * 1024` and rejects it
with the too-large toast exactly when its byte size exceeds that bound (the
10 MiB boundary itself is accepted). -/
theorem size_validation_boundary (f : SelFile) (s : AppState)
    (h : jsEndsWith (jsToLower f.name) ".pdf" = true) :
    ((validateAndSetFile f s).2 = .accepted ↔ f.size ≤ MAX_FILE_SIZE)
    ∧ ((validateAndSetFile f s).2 = .tooLarge ↔ MAX_FILE_SIZE < f.size) := by
  unfold validateAndSetFile
  rw [h]
  by_cases hs : MAX_FILE_SIZE < f.size
  · simp [hs, Nat.not_le.mpr hs]
  · simp [hs, Nat.not_lt.mp hs]

/-- Witness for C1 at the boundary: a 10 MiB file is accepted, a
10 MiB + 1 byte file is rejected as too large. -/
theorem size_validation_boundary_witness :
    (validateAndSetFile ⟨"doc.pdf", 10485760⟩ initialState).2 = .accepted
    ∧ (validateAndSetFile ⟨"doc.pdf", 10485761⟩ initialState).2 = .tooLarge :=
  ⟨(size_validation_boundary ⟨"doc.pdf", 10485760⟩ initialState
      (by decide)).1.mpr (by decide),
   (size_validation_boundary ⟨"doc.pdf", 10485761⟩ initialState
      (by decide)).2.mpr (by decide)⟩

/-- Claim C2: `validateAndSetFile` rejects a file with the wrong-type toast
exactly when its lowercased name does not end in `.pdf`, and such a rejection
leaves the state untouched, so no upload can be attempted for it. -/
theorem extension_validation (f : SelFile) (s : AppState) :
    ((validateAndSetFile f s).2 = .wrongType
      ↔ jsEndsWith (jsToLower f.name) ".pdf" = false)
    ∧ ((validateAndSetFile f s).2 = .wrongType → (validateAndSetFile f s).1 = s) := by
  unfold validateAndSetFile
  by_cases h : jsEndsWith (jsToLower f.name) ".pdf" = true
  · rw [h]
    by_cases hs : f.size > MAX_FILE_SIZE <;> simp [hs, h]
  · rw [Bool.not_eq_true] at h
    simp [h]

/-- Witness for C2: a `.txt` name is flagged wrong-type and the state is kept. -/
theorem extension_validation_witness :
    (validateAndSetFile ⟨"notes.txt", 5⟩ stateWithFile).1 = stateWithFile :=
  (extension_validation ⟨"notes.txt", 5⟩ stateWithFile).2 (by decide)

/-- Claim C7: a drop event carrying several files behaves exactly as if only
the first dropped file had been dropped — the remaining files are ignored. -/
theorem drop_considers_only_first (f : SelFile) (rest : List SelFile)
    (s : AppState) :
    handleDrop (f :: rest) s = handleDrop [f] s := rfl

/-- Claim C8: `deleteFile` always resets the client state — whatever the
DELETE request outcome (success, missing identifier, network error), the next
state has no file, no preview data, no file info and zero progress — and
running `deleteFile` again, with any outcome, observably changes nothing. -/
theorem delete_always_resets (o : DeleteOutcome) (s : AppState) :
    (deleteFile o s).file = none
    ∧ (deleteFile o s).previewData = none
    ∧ (deleteFile o s).fileInfo = none
    ∧ (deleteFile o s).uploadProgress = 0
    ∧ ∀ o2 : DeleteOutcome, deleteFile o2 (deleteFile o s) = deleteFile o s := by
  have hres : ∀ t : AppState, deleteFile o t = resetState t := by
    intro t
    unfold deleteFile
    cases t.fileInfo <;> cases o <;> rfl
  refine ⟨?_, ?_, ?_, ?_, ?_⟩ <;> simp only [hres, resetState]
  intro o2
  unfold deleteFile
  cases o2 <;> rfl

/-- Claim C9: an upload failure surfaces the server `detail` (or the generic
fallback message) as an error and clears every piece of partial state: the
selected file, the preview data, the file info and the upload progress. -/
theorem upload_failure_clears_state (s : AppState) (f : SelFile)
    (d : Option String) (hf : s.file = some f) :
    (uploadFile (.failure d) s).2 = some (d.getD "Error al procesar el archivo")
    ∧ ((uploadFile (.failure d) s).1).file = none
    ∧ ((uploadFile (.failure d) s).1).previewData = none
    ∧ ((uploadFile (.failure d) s).1).fileInfo = none
    ∧ ((uploadFile (.failure d) s).1).uploadProgress = 0 := by
  simp [uploadFile, hf, resetState]

/-- Witness for C9: a failed upload from a state holding a selected file ends
with no selected file. -/
theorem upload_failure_clears_state_witness :
    ((uploadFile (.failure none) stateWithFile).1).file = none :=
  (upload_failure_clears_state stateWithFile ⟨"doc.pdf", 5⟩ none rfl).2.1

/-- Claim C10: a rejected file (wrong extension or oversize) leaves the state
exactly as it was; an accepted file changes only the `file`, `previewData`
and `fileInfo` fields (to the new file, `none` and `none` respectively),
leaving `isDragging`, `isUploading` and `uploadProgress` untouched. -/
theorem validate_frame_condition (f : SelFile) (s : AppState) :
    ((validateAndSetFile f s).2 ≠ ValidationResult.accepted
      → (validateAndSetFile f s).1 = s)
    ∧ ((validateAndSetFile f s).2 = ValidationResult.accepted
      → (validateAndSetFile f s).1
          = { s with file := some f, previewData := none, fileInfo := none }) := by
  unfold validateAndSetFile
  by_cases h : jsEndsWith (jsToLower f.name) ".pdf" = true
  · rw [h]
    by_cases hs : f.size > MAX_FILE_SIZE <;> simp [hs]
  · rw [Bool.not_eq_true] at h
    simp [h]

/-- Witness for C10: rejecting an oversize file preserves the state exactly. -/
theorem validate_frame_condition_witness :
    (validateAndSetFile ⟨"big.pdf", 10485761⟩ stateWithFile).1 = stateWithFile :=
  (validate_frame_condition ⟨"big.pdf", 10485761⟩ stateWithFile).1 (by decide)

/-- `replaceFirstList` rewrites exactly the trailing copy of `pat` when no
occurrence of `pat` starts before it. -/
theorem replaceFirstList_at_end (pat rep : List Char) (hp : pat ≠ []) :
    ∀ stem : List Char, noEarlierMatch pat stem = true →
      replaceFirstList pat rep (stem ++ pat) = stem ++ rep := by
  intro stem
  induction stem with
  | nil =>
    intro _
    cases pat with
    | nil => exact absurd rfl hp
    | cons c cs =>
      show replaceFirstList (c :: cs) rep (c :: cs) = rep
      unfold replaceFirstList
      rw [List.take_length, if_pos rfl, List.drop_length, List.append_nil]
  | cons c rest ih =>
    intro h
    unfold noEarlierMatch at h
    rw [Bool.and_eq_true] at h
    obtain ⟨h1, h2⟩ := h
    have hne : ¬ pat = ((c :: rest) ++ pat).take pat.length := by
      intro he
      rw [← he] at h1
      simp at h1
    rw [List.cons_append] at hne
    show replaceFirstList pat rep (c :: (rest ++ pat)) = c :: (rest ++ rep)
    unfold replaceFirstList
    rw [if_neg hne, ih h2]

/-- Claim C3, counterexample: `REPORT.PDF` passes the case-insensitive upload
validation, yet the download filename shown is `REPORT.PDF`, not
`REPORT.xlsx` — `replace(".pdf", ".xlsx")` is case-sensitive. -/
theorem download_name_counterexample :
    (validateAndSetFile ⟨"REPORT.PDF", 5⟩ initialState).2 = .accepted
    ∧ downloadName "REPORT.PDF" ≠ "REPORT.xlsx" := by decide

/-- Claim C3, amended: the client rewrites only the first case-sensitive
occurrence of `.pdf` in the original filename to `.xlsx`; in particular, for
a filename `stem ++ ".pdf"` in which no occurrence of `.pdf` starts inside
the stem, the shown download name is `stem ++ ".xlsx"` (an uppercase `.PDF`
extension is left unchanged). -/
theorem download_name_first_match (stem : String)
    (h : noEarlierMatch (".pdf").data stem.data = true) :
    downloadName (stem ++ ".pdf") = stem ++ ".xlsx" := by
  unfold downloadName jsReplaceFirst
  have hd : (stem ++ (".pdf" : String)).data
      = stem.data ++ (".pdf" : String).data := rfl
  rw [hd, replaceFirstList_at_end _ _ (by decide) _ h]
  rfl

/-- Witness for amended C3: `informe.pdf` downloads as `informe.xlsx`. -/
theorem download_name_first_match_witness :
    downloadName ("informe" ++ ".pdf") = "informe" ++ ".xlsx" :=
  download_name_first_match "informe" (by decide)

/-- Every member of a list of naturals is bounded by its `foldr max 0`. -/
theorem le_foldr_max (l : List Nat) : ∀ x ∈ l, x ≤ l.foldr max 0 := by
  induction l with
  | nil => intro x hx; cases hx
  | cons a t ih =>
    intro x hx
    rcases List.mem_cons.mp hx with h | h
    · subst h; exact Nat.le_max_left _ _
    · exact le_trans (ih x h) (Nat.le_max_right _ _)

/-- On a non-empty list of naturals, `foldr max 0` is attained by a member. -/
theorem foldr_max_mem (l : List Nat) (h : l ≠ []) : l.foldr max 0 ∈ l := by
  induction l with
  | nil => exact absurd rfl h
  | cons a t ih =>
    cases t with
    | nil => simp
    | cons b t2 =>
      have hm := ih (by simp)
      show max a ((b :: t2).foldr max 0) ∈ a :: b :: t2
      rcases Nat.le_total a ((b :: t2).foldr max 0) with hle | hle
      · rw [Nat.max_eq_right hle]
        exact List.mem_cons_of_mem _ hm
      · rw [Nat.max_eq_left hle]
        exact List.mem_cons_self _ _

/-- No row is wider than `maxCols`. -/
theorem length_le_maxCols (previewData : List (List String)) :
    ∀ row ∈ previewData, row.length ≤ maxCols previewData :=
  fun _ hr => le_foldr_max _ _ (List.mem_map_of_mem List.length hr)

/-- For non-empty data there is one header per column of the widest row. -/
theorem getHeaders_length (previewData : List (List String))
    (h : previewData ≠ []) :
    (getHeaders previewData).length = maxCols previewData := by
  unfold getHeaders
  rw [if_neg (fun he => h (List.length_eq_zero.mp he)), List.length_map,
    List.length_range]

/-- `getD` through a map over `List.range`. -/
theorem getD_range_map (f : Nat → String) (n i : Nat) (h : i < n) :
    ((List.range n).map f).getD i "" = f i := by
  rw [List.getD_eq_getElem?_getD, List.getElem?_map, List.getElem?_range h]
  rfl

/-- Claim C4: the preview body renders exactly `min n 100` rows for `n` data
rows, never more than 100, and the "Mostrando X de Y" counter shows
`X = min n 100`. -/
theorem preview_row_cap (previewData : List (List String)) :
    (renderedPreview previewData).length = min previewData.length 100
    ∧ (renderedPreview previewData).length ≤ 100
    ∧ shownRowCount previewData = min previewData.length 100 := by
  unfold renderedPreview shownRowCount
  refine ⟨?_, ?_, rfl⟩
  · rw [List.length_map, List.length_take, Nat.min_comm]
  · rw [List.length_map, List.length_take]
    exact Nat.min_le_left _ _

/-- Claim C5: for non-empty preview data the exposed column count is the
maximum row width (every row is at most that wide and some row attains it),
and each rendered row has exactly that many cells, cell `i` being the row's
cell `i` when present and the empty string when the row is shorter — never
a failure. -/
theorem preview_column_padding (previewData : List (List String))
    (hne : previewData ≠ []) :
    (getHeaders previewData).length = maxCols previewData
    ∧ (∀ row ∈ previewData, row.length ≤ maxCols previewData)
    ∧ (∃ row ∈ previewData, row.length = maxCols previewData)
    ∧ (∀ row ∈ previewData,
        (renderedRow previewData row).length = maxCols previewData
        ∧ (∀ i : Nat, i < maxCols previewData →
            (renderedRow previewData row).getD i "" = row.getD i "")
        ∧ (∀ i : Nat, i < maxCols previewData → row.length ≤ i →
            (renderedRow previewData row).getD i "" = "")) := by
  have hh := getHeaders_length previewData hne
  refine ⟨hh, length_le_maxCols previewData, ?_, ?_⟩
  · have hm := foldr_max_mem (previewData.map List.length)
      (fun he => hne (List.map_eq_nil_iff.mp he))
    rcases List.mem_map.mp hm with ⟨row, hr, he⟩
    exact ⟨row, hr, he⟩
  · intro row _
    refine ⟨?_, ?_, ?_⟩
    · unfold renderedRow
      rw [List.length_map, List.length_range, hh]
    · intro i hi
      unfold renderedRow
      rw [getD_range_map _ _ _ (hh ▸ hi)]
      rfl
    · intro i hi hlen
      unfold renderedRow
      rw [getD_range_map _ _ _ (hh ▸ hi)]
      unfold renderedCell
      exact List.getD_eq_default _ _ hlen

/-- Witness for C5 on two ragged rows: two headers, and the short row's
second cell renders empty. -/
theorem preview_column_padding_witness :
    (getHeaders [["a", "b"], ["c"]]).length = maxCols [["a", "b"], ["c"]] :=
  (preview_column_padding [["a", "b"], ["c"]] (by decide)).1

/-- Claim C6: rendering preserves order — cell `j` of rendered preview row
`i` equals cell `j` of data row `i`, for every `i` within the rendered range
and `j` within that data row. -/
theorem preview_preserves_order (previewData : List (List String)) (i j : Nat)
    (hi : i < min previewData.length 100)
    (hj : j < (previewData.getD i []).length) :
    ((renderedPreview previewData).getD i []).getD j ""
      = (previewData.getD i []).getD j "" := by
  have hil : i < previewData.length := lt_of_lt_of_le hi (Nat.min_le_left _ _)
  have hi100 : i < 100 := lt_of_lt_of_le hi (Nat.min_le_right _ _)
  have hne : previewData ≠ [] := by
    intro he
    rw [he] at hil
    exact absurd hil (by simp)
  have h1 : (renderedPreview previewData).getD i []
      = renderedRow previewData (previewData.getD i []) := by
    unfold renderedPreview
    rw [List.getD_eq_getElem?_getD, List.getElem?_map, List.getElem?_take]
    simp [hi100, List.getElem?_eq_getElem hil, List.getD_eq_getElem?_getD]
  have hmem : previewData.getD i [] ∈ previewData := by
    rw [List.getD_eq_getElem?_getD, List.getElem?_eq_getElem hil]
    exact List.getElem_mem hil
  have hj2 : j < (getHeaders previewData).length := by
    rw [getHeaders_length previewData hne]
    exact lt_of_lt_of_le hj (length_le_maxCols previewData _ hmem)
  rw [h1]
  unfold renderedRow
  rw [getD_range_map _ _ _ hj2]
  rfl

/-- Witness for C6 at row 1, cell 0 of a two-row preview. -/
theorem preview_preserves_order_witness :
    ((renderedPreview [["a", "b"], ["c"]]).getD 1 []).getD 0 ""
      = ([["a", "b"], ["c"]].getD 1 []).getD 0 "" :=
  preview_preserves_order [["a", "b"], ["c"]] 1 0 (by decide) (by decide)

end PdfToExc
